import Mathlib

/-!
Verification of the Xposure round lifecycle and settlement engine
(`src/index.js`).

This file gives a shallow embedding of the mutable state of the bot
(`treasuryXPOSURE`, `actualTreasuryBalance`, `transFeeCollected`,
`pendingPayments`, `participants`, `voters`, `phase`, timestamps) and of the
handlers that mutate it:

* the `/confirm-payment` HTTP handler (`confirmPayment`),
* the phase transitions `startNewCycle`, `startVoting`, `announceWinners`,
* the `vote_` callback handler (`castVote`),
* the market purchase selection `buyXPOSUREOnMarket` / `checkIfBonded`,
* the treasury bonus functions `getTreasuryBonusPercentage`,
  `calculateTreasuryBonus`.

JavaScript numbers are modelled with exact arithmetic: token amounts
(results of `Math.floor`) as `ℤ`, SOL amounts and tier fractions as `ℚ`,
`Math.floor` as `Int.floor`.  External I/O (the Solana RPC calls, the market
venues, Telegram messaging) is modelled by oracle parameters: a purchase
either yields a balance delta or throws, a transfer either succeeds or
fails; messaging has no effect on the embedded state, just as the source's
`try { await bot.sendMessage(...) } catch {}` blocks have none.
Display-only fields of the JS records (tier name, badge, the formatted
retention string, timestamp) are omitted; all fields read by any control
flow are kept.
-/

namespace Xposure

/-- Round phase, `phase ∈ {"submission", "voting", "cooldown"}` (src/index.js:76). -/
inductive Phase where
  | submission
  | voting
  | cooldown
deriving DecidableEq, BEq, Repr

/-- A payer's chosen path, `choice ∈ {"upload", "vote"}`. -/
inductive Choice where
  | upload
  | vote
deriving DecidableEq, BEq, Repr

/-- A `pendingPayments` entry.  Created by the `start_` callback handler with
`{userId, choice, reference, confirmed: false, paid: false}`; the audio
handler later sets `track`, `title`, `trackDuration`, `user`; the
`/confirm-payment` handler sets `confirmed` and `paid`.  An entry pushed by
`/confirm-payment` itself for an unknown reference carries no `choice`
(modelled as `none`, matching the JS `payment?.choice || "vote"` read). -/
structure PendingPayment where
  userId : ℕ
  choice : Option Choice
  reference : ℕ
  confirmed : Bool
  paid : Bool
  track : Option ℕ
  title : Option String
  trackDuration : ℕ
  user : Option String
deriving DecidableEq, Repr

/-- A settled Upload entrant (an element of `participants`), as built at
src/index.js:865-874 from `userData` plus the pending entry's track data. -/
structure Participant where
  userId : ℕ
  wallet : ℕ
  amount : ℚ
  xposureReceived : ℤ
  multiplier : ℚ
  paid : Bool
  choice : Choice
  track : Option ℕ
  title : Option String
  trackDuration : ℕ
  votes : ℕ
  voters : List ℕ
  user : Option String
deriving DecidableEq, Repr

/-- A settled VoteOnly entrant (an element of `voters`), as built at
src/index.js:850-854 and 916-920. -/
structure Voter where
  userId : ℕ
  wallet : ℕ
  amount : ℚ
  xposureReceived : ℤ
  multiplier : ℚ
  paid : Bool
  choice : Choice
  votedFor : Option ℕ
deriving DecidableEq, Repr

/-- The whole mutable state of the bot (src/index.js:69-78). -/
structure SysState where
  treasuryXPOSURE : ℤ
  actualTreasuryBalance : ℤ
  transFeeCollected : ℚ
  pendingPayments : List PendingPayment
  participants : List Participant
  voters : List Voter
  phase : Phase
  cycleStartTime : Option ℤ
  nextPhaseTime : Option ℤ
deriving DecidableEq, Repr

/-- In-place mutation of the object returned by `Array.prototype.find`:
the first element satisfying `p` is replaced by its image under `f`. -/
def updateFirst {α : Type} (p : α → Bool) (f : α → α) : List α → List α
  | [] => []
  | x :: t => if p x then f x :: t else x :: updateFirst p f t

/-! ## Treasury bonus (src/index.js:84-102) -/

/-- `getTreasuryBonusPercentage()`: step function of the actual treasury
balance (src/index.js:84-90). -/
def getTreasuryBonusPercentage (actualTreasuryBalance : ℤ) : ℚ :=
  if actualTreasuryBalance < 100000 then 20/100
  else if actualTreasuryBalance < 500000 then 15/100
  else if actualTreasuryBalance < 1000000 then 10/100
  else if actualTreasuryBalance < 5000000 then 5/100
  else 2/100

/-- `calculateTreasuryBonus()` =
`Math.floor(actualTreasuryBalance * percentage)` (src/index.js:99-102). -/
def calculateTreasuryBonus (actualTreasuryBalance : ℤ) : ℤ :=
  ⌊(actualTreasuryBalance : ℚ) * getTreasuryBonusPercentage actualTreasuryBalance⌋

/-- One bonus payout applied to the reserve: `actualTreasuryBalance -=
treasuryBonusAmount` where the amount was computed by
`calculateTreasuryBonus` (src/index.js:1132, 1161). -/
def bonusPayoutStep (r : ℤ) : ℤ := r - calculateTreasuryBonus r

/-! ## Tiers (src/index.js:156-208) -/

/-- `getTier(amount)` band selection (src/index.js:191-196); only the
retention/multiplier fields are consumed, so the band is the model. -/
inductive TierKind where
  | basic
  | mid
  | high
  | whale
deriving DecidableEq, BEq, Repr

def getTier (amount : ℚ) : TierKind :=
  if amount ≥ 1/2 then .whale
  else if amount ≥ 1/10 then .high
  else if amount ≥ 5/100 then .mid
  else .basic

/-- Fixed `retention` of the band from the `TIERS` table. -/
def tierRetention : TierKind → ℚ
  | .basic => 50/100
  | .mid => 55/100
  | .high => 60/100
  | .whale => 65/100

/-- Fixed `multiplier` of the band from the `TIERS` table. -/
def tierMultiplier : TierKind → ℚ
  | .basic => 1
  | .mid => 105/100
  | .high => 110/100
  | .whale => 115/100

/-- `getWhaleRetention(amount)` (src/index.js:198-202). -/
def getWhaleRetention (amount : ℚ) : ℚ :=
  if amount < 1/2 then 65/100
  else if amount ≥ 5 then 75/100
  else 65/100 + ((amount - 1/2) / (9/2)) * (10/100)

/-- `getWhaleMultiplier(amount)` (src/index.js:204-208). -/
def getWhaleMultiplier (amount : ℚ) : ℚ :=
  if amount < 1/2 then 115/100
  else if amount ≥ 5 then 3/2
  else 115/100 + ((amount - 1/2) / (9/2)) * (35/100)

/-- The retention actually used by `/confirm-payment`: the band's value,
overridden by `getWhaleRetention` for the Whale band (src/index.js:702-709). -/
def effectiveRetention (amount : ℚ) : ℚ :=
  if getTier amount = .whale then getWhaleRetention amount
  else tierRetention (getTier amount)

/-- The multiplier actually used by `/confirm-payment`
(src/index.js:702-709). -/
def effectiveMultiplier (amount : ℚ) : ℚ :=
  if getTier amount = .whale then getWhaleMultiplier amount
  else tierMultiplier (getTier amount)

/-! ## Token split arithmetic (src/index.js:788-789, 817-821) -/

/-- `userXPOSURE = Math.floor(totalXPOSURE * retention)` (src/index.js:788). -/
def userShare (totalXPOSURE : ℤ) (retention : ℚ) : ℤ :=
  ⌊(totalXPOSURE : ℚ) * retention⌋

/-- `competitionXPOSURE = totalXPOSURE - userXPOSURE` (src/index.js:789). -/
def competitionShare (totalXPOSURE : ℤ) (retention : ℚ) : ℤ :=
  totalXPOSURE - userShare totalXPOSURE retention

/-- `roundPool = Math.floor(competitionXPOSURE * 0.65)` (src/index.js:817). -/
def roundPoolShare (competitionXPOSURE : ℤ) : ℤ :=
  ⌊(competitionXPOSURE : ℚ) * (65/100)⌋

/-- `permanentTreasury = competitionXPOSURE - roundPool` (src/index.js:818). -/
def permanentShare (competitionXPOSURE : ℤ) : ℤ :=
  competitionXPOSURE - roundPoolShare competitionXPOSURE

/-! ## Market purchase selection (src/index.js:284-319, 507-541)

`buyOnPumpFun` and `buyOnJupiter` are network calls; each either returns a
token amount or throws with a reason.  They are modelled as
`Except String ℤ` oracle inputs.  `checkIfBonded` reads the pump.fun bonding
curve account; the three observable outcomes of that read are modelled by
`BondProbe`. -/

/-- Outcome of reading the bonding-curve account in `checkIfBonded`:
the account is gone, the account exists with byte `data[8]` = `complete`,
or the RPC call threw. -/
inductive BondProbe where
  | noAccount
  | curve (complete : ℕ)
  | probeError
deriving DecidableEq, Repr

/-- `checkIfBonded()` (src/index.js:284-319): graduated when the bonding
curve account is missing, when `data[8] === 1`, or on any probe error
(the catch block defaults to Jupiter). -/
def checkIfBonded : BondProbe → Bool
  | .noAccount => true
  | .curve complete => complete == 1
  | .probeError => true

/-- `buyXPOSUREOnMarket(solAmount)` venue selection (src/index.js:507-541):
bonded (graduated) tokens are bought on Jupiter with no fallback; tokens
still on the bonding curve are bought on PumpPortal, falling back to Jupiter
if the PumpPortal attempt throws.  The result (or the propagated error) of
the last attempted venue is returned. -/
def buyXPOSUREOnMarket (isBonded : Bool)
    (pumpResult jupiterResult : Except String ℤ) : Except String ℤ :=
  if isBonded then jupiterResult
  else
    match pumpResult with
    | .ok amt => .ok amt
    | .error _ => jupiterResult

/-! ## The `/confirm-payment` handler (src/index.js:637-976) -/

/-- The JSON body of a `/confirm-payment` request after parsing:
`amount` is `parseFloat(amount)` (`none` when missing or `NaN`);
`walletValid` records whether `new PublicKey(senderWallet)` parses. -/
structure PaymentRequest where
  reference : Option ℕ
  userId : Option ℕ
  amount : Option ℚ
  senderWallet : Option ℕ
  walletValid : Bool
deriving DecidableEq, Repr

/-- External effects touched by one `/confirm-payment` call:
`purchaseDelta` is `balanceAfter - balanceBefore` around
`buyXPOSUREOnMarket` when the purchase and the balance reads succeed
(`none` when any of them throws, which the handler catches and treats as
0 tokens received); `transferOk` is the result of
`transferTokensToRecipient`. -/
structure PurchaseOracle where
  purchaseDelta : Option ℤ
  transferOk : Bool
deriving DecidableEq, Repr

/-- The handler's response, abstracting the JSON bodies and HTTP codes. -/
inductive ConfirmResp where
  | missingFields
  | invalidAmount
  | invalidWallet
  | alreadyProcessed
  | purchaseFailed
  | transferFailed
  | success (xposureAmount : ℤ)
deriving DecidableEq, Repr

/-- The three 400-level rejections issued before any state is touched. -/
def ConfirmResp.isValidationError : ConfirmResp → Bool
  | .missingFields => true
  | .invalidAmount => true
  | .invalidWallet => true
  | _ => false

/-- The request passes every validation check of the handler
(src/index.js:648-667): all fields present, `0.001 ≤ amount ≤ 100`, and the
sender wallet parses as a public key. -/
def validRequest (req : PaymentRequest) : Bool :=
  req.userId.isSome && req.reference.isSome && req.senderWallet.isSome &&
    (match req.amount with
     | none => false
     | some a => !(decide (a < 1/1000) || decide (100 < a))) &&
    req.walletValid

/-- `existing.confirmed = true` (src/index.js:688). -/
def markConfirmed (p : PendingPayment) : PendingPayment :=
  { p with confirmed := true }

/-- `payment.paid = true` (src/index.js:963). -/
def markPaid (p : PendingPayment) : PendingPayment :=
  { p with paid := true }

/-- The entry `pendingPayments.push({userId, reference, confirmed: true})`
creates for an unknown reference (src/index.js:690-694): no choice, no
track. -/
def pushedPayment (uid ref : ℕ) : PendingPayment :=
  { userId := uid, choice := none, reference := ref, confirmed := true,
    paid := false, track := none, title := none, trackDuration := 0,
    user := none }

/-- `transFeeCollected += transFee` with `transFee = amountNum * 0.10`
(src/index.js:699, 724).  `sendSOLPayout` swallows its own errors
(src/index.js:978-1000), so this line always runs. -/
def addTransFee (s : SysState) (amt : ℚ) : SysState :=
  { s with transFeeCollected := s.transFeeCollected + amt * (10/100) }

/-- The part of the handler after the reference has been marked confirmed
(src/index.js:697-970): trans-fee, purchase, token split, transfer,
pool credit, registration, and marking the entry paid. -/
def confirmRest (s : SysState) (uid ref wallet : ℕ) (amt : ℚ)
    (o : PurchaseOracle) : SysState × ConfirmResp :=
  let retention := effectiveRetention amt
  let multiplier := effectiveMultiplier amt
  let s2 := addTransFee s amt
  let totalXPOSURE : ℤ := o.purchaseDelta.getD 0
  if totalXPOSURE = 0 then (s2, .purchaseFailed)
  else
    let userXPOSURE := userShare totalXPOSURE retention
    let competitionXPOSURE := competitionShare totalXPOSURE retention
    if o.transferOk = false then (s2, .transferFailed)
    else
      let roundPool := roundPoolShare competitionXPOSURE
      let permanentTreasury := permanentShare competitionXPOSURE
      let s3 := { s2 with
        treasuryXPOSURE := s2.treasuryXPOSURE + roundPool,
        actualTreasuryBalance := s2.actualTreasuryBalance + permanentTreasury }
      let payment := s3.pendingPayments.find? (fun p => p.reference == ref)
      let voterRecord : Voter :=
        { userId := uid, wallet := wallet, amount := amt,
          xposureReceived := userXPOSURE, multiplier := multiplier,
          paid := true, choice := .vote, votedFor := none }
      let s4 :=
        match payment with
        | some pay =>
          match pay.choice with
          | some .upload =>
            match pay.track with
            | none => { s3 with voters := s3.voters ++ [voterRecord] }
            | some tr =>
              let participantRecord : Participant :=
                { userId := uid, wallet := wallet, amount := amt,
                  xposureReceived := userXPOSURE, multiplier := multiplier,
                  paid := true, choice := .upload, track := some tr,
                  title := pay.title, trackDuration := pay.trackDuration,
                  votes := 0, voters := [], user := pay.user }
              { s3 with participants := s3.participants ++ [participantRecord] }
          | _ => { s3 with voters := s3.voters ++ [voterRecord] }
        | none => { s3 with voters := s3.voters ++ [voterRecord] }
      let paidList :=
        updateFirst (fun p : PendingPayment => p.reference == ref)
          markPaid s4.pendingPayments
      let s5 := { s4 with pendingPayments := paidList }
      (s5, .success userXPOSURE)

/-- The `/confirm-payment` handler (src/index.js:637-976) as a state
transition.  Validation, then duplicate detection by `reference`, then
`confirmRest`. -/
def confirmPayment (s : SysState) (req : PaymentRequest)
    (o : PurchaseOracle) : SysState × ConfirmResp :=
  match req.userId, req.reference, req.senderWallet with
  | some uid, some ref, some wallet =>
    match req.amount with
    | none => (s, .invalidAmount)
    | some amt =>
      if amt < 1/1000 ∨ 100 < amt then (s, .invalidAmount)
      else if req.walletValid = false then (s, .invalidWallet)
      else
        match s.pendingPayments.find? (fun p => p.reference == ref) with
        | some e =>
          if e.confirmed then (s, .alreadyProcessed)
          else
            let markedList :=
              updateFirst (fun p : PendingPayment => p.reference == ref)
                markConfirmed s.pendingPayments
            confirmRest { s with pendingPayments := markedList } uid ref wallet amt o
        | none =>
          confirmRest
            { s with pendingPayments := s.pendingPayments ++ [pushedPayment uid ref] }
            uid ref wallet amt o
  | _, _, _ => (s, .missingFields)

/-! ## Round lifecycle (src/index.js:1019-1226, 1528-1530) -/

/-- The filter `participants.filter(p => p.choice === "upload" && p.paid)`
used by `startVoting` and `announceWinners` (src/index.js:1054, 1117). -/
def uploadersPaid (l : List Participant) : List Participant :=
  l.filter (fun p => p.choice == Choice.upload && p.paid)

/-- `calculateVotingTime()` (src/index.js:124-153), in milliseconds. -/
def calculateVotingTime (l : List Participant) : ℤ :=
  let uploaders := l.filter (fun p => p.choice == Choice.upload && p.track.isSome)
  if uploaders.isEmpty then 3 * 60 * 1000
  else
    let hasAllDurations := uploaders.all (fun p => decide (0 < p.trackDuration))
    let totalDuration :=
      (uploaders.map (fun p => if 0 < p.trackDuration then p.trackDuration else 0)).sum
    if hasAllDurations && decide (0 < totalDuration) then
      ((totalDuration : ℤ) + 60) * 1000
    else (uploaders.length : ℤ) * 2 * 60 * 1000

/-- `startNewCycle()` state effect (src/index.js:1019-1048): enter the
submission phase and arm the 5-minute deadline.  Collections and both
treasury balances are untouched. -/
def startNewCycle (s : SysState) (now : ℤ) : SysState :=
  { s with phase := .submission, cycleStartTime := some now,
           nextPhaseTime := some (now + 5 * 60 * 1000) }

/-- `startVoting()` state effect (src/index.js:1051-1108): with no paid
uploaders, go straight to cooldown with everything (including the round
pool) carried over; otherwise enter the voting phase for
`calculateVotingTime()` milliseconds. -/
def startVoting (s : SysState) (now : ℤ) : SysState :=
  if (uploadersPaid s.participants).isEmpty then { s with phase := .cooldown }
  else
    { s with phase := .voting,
             nextPhaseTime := some (now + calculateVotingTime s.participants) }

/-- `announceWinners()` state effect (src/index.js:1111-1226): enter
cooldown; clear `participants`, `voters`, `pendingPayments`; zero the round
pool; and, when at least one paid uploader exists and the bonus roll hit,
deduct `calculateTreasuryBonus()` from the actual treasury balance
(src/index.js:1159-1162).  The prize transfers themselves are on-chain
sends and do not touch the embedded ledger. -/
def announceWinners (s : SysState) (bonusRoll : Bool) : SysState :=
  if (uploadersPaid s.participants).isEmpty then
    { s with phase := .cooldown, participants := [], voters := [],
             treasuryXPOSURE := 0, pendingPayments := [] }
  else
    let bonusDeduction :=
      if bonusRoll then calculateTreasuryBonus s.actualTreasuryBalance else 0
    { s with phase := .cooldown, participants := [], voters := [],
             treasuryXPOSURE := 0, pendingPayments := [],
             actualTreasuryBalance := s.actualTreasuryBalance - bonusDeduction }

/-- The only recurring interval handler (src/index.js:1528-1530) logs the
phase and the entrant counts and changes no state; there is no other
`setInterval` that touches the ledger (the self-ping at
src/index.js:1534-1541 only issues an HTTP GET). -/
def periodicStatusTick (s : SysState) : SysState := s

/-! ## Settlement payouts (src/index.js:1138-1198) -/

/-- The fixed weight schedule `[0.40, 0.25, 0.20, 0.10, 0.05]`
(src/index.js:1139). -/
def weights : List ℚ := [40/100, 25/100, 20/100, 10/100, 5/100]

/-- `prizePool = Math.floor(treasuryXPOSURE * 0.80)` (src/index.js:1142). -/
def prizePool (treasuryXPOSURE : ℤ) : ℤ := ⌊(treasuryXPOSURE : ℚ) * (80/100)⌋

/-- `voterPool = treasuryXPOSURE - prizePool` (src/index.js:1143). -/
def voterPool (treasuryXPOSURE : ℤ) : ℤ :=
  treasuryXPOSURE - prizePool treasuryXPOSURE

/-- Stable insertion of a participant into a list sorted by votes
descending: strictly higher-voted entries stay ahead, so earlier entrants
keep their position on ties, matching the stable
`[...uploaders].sort((a, b) => b.votes - a.votes)` (src/index.js:1138). -/
def insertByVotes (p : Participant) : List Participant → List Participant
  | [] => [p]
  | q :: t => if p.votes < q.votes then q :: insertByVotes p t else p :: q :: t

/-- Stable sort by votes descending (src/index.js:1138). -/
def sortByVotesDesc : List Participant → List Participant
  | [] => []
  | p :: t => insertByVotes p (sortByVotesDesc t)

/-- `baseAmt = Math.floor(prizePool * weights[i])` (src/index.js:1155). -/
def winnerBase (pp : ℤ) (w : ℚ) : ℤ := ⌊(pp : ℚ) * w⌋

/-- `finalAmt = Math.floor(baseAmt * w.multiplier)` (src/index.js:1156). -/
def winnerFinal (pp : ℤ) (w : ℚ) (mult : ℚ) : ℤ :=
  ⌊(winnerBase pp w : ℚ) * mult⌋

/-- The `finalAmt` of each of the `numWinners = min(5, sorted.length)`
ranked winners, the treasury bonus added to first place when the roll hit
(src/index.js:1153-1165).  `zip` with the five weights performs the
`min(5, ·)` truncation. -/
def winnerPayoutList (pp : ℤ) (sorted : List Participant)
    (bonusWon : Bool) (bonusAmt : ℤ) : List ℤ :=
  match (sorted.zip weights).map (fun pw => winnerFinal pp pw.2 pw.1.multiplier) with
  | [] => []
  | h :: t => (h + (if bonusWon then bonusAmt else 0)) :: t

/-- Sum of the amounts the payout loops actually transfer: each amount is
sent only when it is positive (src/index.js:1167, 1188). -/
def paidSum (l : List ℤ) : ℤ := (l.filter (fun x => decide (0 < x))).sum

/-- `share = Math.floor((v.amount / totalVoterAmount) * voterPool)`
(src/index.js:1186). -/
def voterShare (vp : ℤ) (total amt : ℚ) : ℤ := ⌊amt / total * (vp : ℚ)⌋

/-- Total XPOSURE transferred to the ranked winners by the winners loop
of `announceWinners` (src/index.js:1153-1175). -/
def settlementWinnersPaid (s : SysState) (bonusRoll : Bool) : ℤ :=
  paidSum (winnerPayoutList (prizePool s.treasuryXPOSURE)
    (sortByVotesDesc (uploadersPaid s.participants))
    bonusRoll (calculateTreasuryBonus s.actualTreasuryBalance))

/-- Total XPOSURE transferred to the winning side's voters by the voter
loop of `announceWinners` (src/index.js:1177-1198): voters whose `votedFor`
is the top-ranked uploader share `voterPool` pro-rata by `amount`, and the
loop runs only when such voters exist and `voterPool > 0`. -/
def settlementVotersPaid (s : SysState) : ℤ :=
  match sortByVotesDesc (uploadersPaid s.participants) with
  | [] => 0
  | winner :: _ =>
    let wvs := s.voters.filter (fun v => v.votedFor == some winner.userId)
    if wvs.isEmpty || decide (voterPool s.treasuryXPOSURE ≤ 0) then 0
    else
      let total := (wvs.map (fun v => v.amount)).sum
      paidSum (wvs.map (fun v => voterShare (voterPool s.treasuryXPOSURE) total v.amount))

/-- Everything `announceWinners` pays out of the round, winners plus
voters (src/index.js:1138-1198); zero when the round had no paid uploader
(the early return at src/index.js:1119-1128 pays nothing). -/
def settlementTotalPaid (s : SysState) (bonusRoll : Bool) : ℤ :=
  if (uploadersPaid s.participants).isEmpty then 0
  else settlementWinnersPaid s bonusRoll + settlementVotersPaid s

/-! ## The `vote_` callback handler (src/index.js:1433-1471) -/

/-- Response of the `vote_` callback handler, abstracting
`answerCallbackQuery` texts. -/
inductive VoteResp where
  | notFound
  | alreadyVoted
  | voted
deriving DecidableEq, Repr

/-- `entry.votes++; entry.voters.push(voterId)` (src/index.js:1450-1451). -/
def bumpVotes (voterId : ℕ) (p : Participant) : Participant :=
  { p with votes := p.votes + 1, voters := p.voters ++ [voterId] }

/-- The state after a successful vote: the target is bumped and the
caller's `votedFor` — when the caller is a registered voter — is
overwritten with the target (src/index.js:1450-1456). -/
def castVoteApplied (s : SysState) (voterId targetId : ℕ) : SysState :=
  let newParticipants :=
    updateFirst (fun p : Participant => p.userId == targetId)
      (bumpVotes voterId) s.participants
  let newVoters :=
    updateFirst (fun v : Voter => v.userId == voterId)
      (fun v => { v with votedFor := some targetId }) s.voters
  { s with participants := newParticipants, voters := newVoters }

/-- `castVote`: the `vote_` branch of the callback handler
(src/index.js:1433-1471).  The deduplication check is
`entry.voters.includes(voterId)` on the target participant only. -/
def castVote (s : SysState) (voterId targetId : ℕ) : SysState × VoteResp :=
  match s.participants.find? (fun p => p.userId == targetId) with
  | none => (s, .notFound)
  | some entry =>
    if entry.voters.contains voterId then (s, .alreadyVoted)
    else (castVoteApplied s voterId targetId, .voted)

/-! ## Concrete states used by the witnesses and counterexamples below -/

/-- A paid upload participant with the given id, votes and multiplier. -/
def mkUploader (uid votes : ℕ) (mult : ℚ) : Participant :=
  { userId := uid, wallet := uid, amount := 1, xposureReceived := 0,
    multiplier := mult, paid := true, choice := .upload, track := some uid,
    title := none, trackDuration := 60, votes := votes, voters := [],
    user := none }

/-- Round state with five paid Whale uploaders (multiplier 1.5) and a
1000-token round pool. -/
def exWhaleRound : SysState :=
  { treasuryXPOSURE := 1000, actualTreasuryBalance := 0,
    transFeeCollected := 0, pendingPayments := [],
    participants := [mkUploader 1 5 (3/2), mkUploader 2 4 (3/2),
      mkUploader 3 3 (3/2), mkUploader 4 2 (3/2), mkUploader 5 1 (3/2)],
    voters := [], phase := .voting, cycleStartTime := some 0,
    nextPhaseTime := some 0 }

/-- A settled vote-only voter with id 10 who weighted in 0.1 SOL. -/
def mkVoter10 (votedFor : Option Nat) : Voter :=
  { userId := 10, wallet := 10, amount := 1/10, xposureReceived := 0,
    multiplier := 1, paid := true, choice := .vote, votedFor := votedFor }

/-- An unconfirmed pending entry with reference 42 for user 3. -/
def mkPending42 (choice : Option Choice) : PendingPayment :=
  { userId := 3, choice := choice, reference := 42, confirmed := false,
    paid := false, track := none, title := none, trackDuration := 0,
    user := none }

/-- Round state with two Basic-tier uploaders (multiplier 1) and one voter
who voted for the leader. -/
def exBasicRound : SysState :=
  { treasuryXPOSURE := 1000, actualTreasuryBalance := 0,
    transFeeCollected := 0, pendingPayments := [],
    participants := [mkUploader 1 3 1, mkUploader 2 1 1],
    voters := [mkVoter10 (some 1)],
    phase := .voting, cycleStartTime := some 0, nextPhaseTime := some 0 }

/-- Mid-round state holding a participant, a voter, a pending entry and a
non-zero round pool. -/
def exMidRound : SysState :=
  { treasuryXPOSURE := 100, actualTreasuryBalance := 500,
    transFeeCollected := 0,
    pendingPayments := [mkPending42 (some .vote)],
    participants := [mkUploader 1 2 1],
    voters := [mkVoter10 none],
    phase := .cooldown, cycleStartTime := some 0, nextPhaseTime := some 0 }

/-- Submission-phase state with one unconfirmed pending entry created at the
round start (time 0) and nothing else. -/
def exStale : SysState :=
  { treasuryXPOSURE := 0, actualTreasuryBalance := 0, transFeeCollected := 0,
    pendingPayments := [mkPending42 (some .upload)],
    participants := [], voters := [], phase := .submission,
    cycleStartTime := some 0, nextPhaseTime := some 300000 }

/-- Voting-phase state with two competing uploaders and one registered
voter (id 10) who has not voted yet. -/
def exVoteRound : SysState :=
  { treasuryXPOSURE := 0, actualTreasuryBalance := 0, transFeeCollected := 0,
    pendingPayments := [],
    participants := [mkUploader 1 0 1, mkUploader 2 0 1],
    voters := [mkVoter10 none],
    phase := .voting, cycleStartTime := some 0, nextPhaseTime := some 0 }

/-- The empty starting state. -/
def exEmpty : SysState :=
  { treasuryXPOSURE := 0, actualTreasuryBalance := 0, transFeeCollected := 0,
    pendingPayments := [], participants := [], voters := [],
    phase := .submission, cycleStartTime := some 0,
    nextPhaseTime := some 300000 }

/-- A fully valid payment request: 0.03 SOL from user 1, reference 7. -/
def exReq : PaymentRequest :=
  { reference := some 7, userId := some 1, amount := some (3/100),
    senderWallet := some 2, walletValid := true }

/-- A request whose amount 200 exceeds the accepted 0.001-100 SOL range. -/
def exBadReq : PaymentRequest :=
  { reference := some 7, userId := some 1, amount := some 200,
    senderWallet := some 2, walletValid := true }

/-- Oracle for a run where the purchase yields 1000 tokens and the user
transfer succeeds. -/
def exOracle : PurchaseOracle := { purchaseDelta := some 1000, transferOk := true }

/-- Oracle for a run where the market purchase throws. -/
def exFailOracle : PurchaseOracle := { purchaseDelta := none, transferOk := true }

/-! ## Helper lemmas -/

theorem floor_add_floor_le (a b : ℚ) : ⌊a⌋ + ⌊b⌋ ≤ ⌊a + b⌋ := by
  apply Int.le_floor.mpr
  push_cast
  exact add_le_add (Int.floor_le a) (Int.floor_le b)

theorem updateFirst_find? {α : Type} (p : α → Bool) (f : α → α)
    (hp : ∀ x, p (f x) = p x) (l : List α) :
    (updateFirst p f l).find? p = (l.find? p).map f := by
  induction l with
  | nil => rfl
  | cons x t ih =>
    by_cases hx : p x
    · simp [updateFirst, hx, List.find?_cons_of_pos, hp]
    · simp only [updateFirst, hx]
      rw [if_neg (by simp [hx])]
      simp [List.find?_cons_of_neg, hx, ih]

theorem find?_append_of_none {α : Type} (p : α → Bool) (l : List α) (x : α)
    (h : l.find? p = none) (hx : p x = true) :
    (l ++ [x]).find? p = some x := by
  induction l with
  | nil => simp [List.find?, hx]
  | cons y t ih =>
    rw [List.find?_cons] at h
    rcases hy : p y with _ | _
    · rw [hy] at h
      simp only [List.cons_append, List.find?_cons, hy]
      exact ih h
    · rw [hy] at h
      exact absurd h (by simp)

theorem mem_insertByVotes {a p : Participant} {l : List Participant} :
    a ∈ insertByVotes p l ↔ a = p ∨ a ∈ l := by
  induction l with
  | nil => simp [insertByVotes]
  | cons q t ih =>
    by_cases h : p.votes < q.votes
    · simp only [insertByVotes, if_pos h, List.mem_cons, ih]
      tauto
    · simp only [insertByVotes, if_neg h, List.mem_cons]

theorem mem_sortByVotesDesc {a : Participant} {l : List Participant} :
    a ∈ sortByVotesDesc l ↔ a ∈ l := by
  induction l with
  | nil => simp [sortByVotesDesc]
  | cons p t ih =>
    simp only [sortByVotesDesc, mem_insertByVotes, ih, List.mem_cons]

theorem paidSum_le_sum (l : List ℤ) (h : ∀ x ∈ l, 0 ≤ x) :
    paidSum l ≤ l.sum := by
  induction l with
  | nil => simp [paidSum]
  | cons x t ih =>
    have hx := h x (List.mem_cons_self x t)
    have ht := ih fun y hy => h y (List.mem_cons_of_mem x hy)
    by_cases hpos : 0 < x
    · simpa [paidSum, List.filter_cons, hpos] using add_le_add_left ht x
    · simp only [paidSum, List.filter_cons, decide_eq_true_eq, hpos, if_false,
        List.sum_cons]
      exact le_trans ht (by omega)

/-- For `0 ≤ t` and a fraction `0 ≤ r ≤ 1`, `⌊t * r⌋` lies between 0 and
`t`; this is the shape of every floor split in the handler. -/
theorem floor_mul_frac_bounds (t : ℤ) (r : ℚ) (ht : 0 ≤ t) (h0 : 0 ≤ r)
    (h1 : r ≤ 1) : 0 ≤ ⌊(t : ℚ) * r⌋ ∧ ⌊(t : ℚ) * r⌋ ≤ t := by
  have htq : (0 : ℚ) ≤ (t : ℚ) := by exact_mod_cast ht
  constructor
  · exact Int.floor_nonneg.mpr (mul_nonneg htq h0)
  · calc ⌊(t : ℚ) * r⌋ ≤ ⌊((t : ℤ) : ℚ)⌋ :=
          Int.floor_mono (by simpa using mul_le_of_le_one_right htq h1)
    _ = t := Int.floor_intCast t

/-! ## C3: token split conservation -/

/-- C3.  For every settled payment with `tokensReceived ≥ 0` and a retention
fraction in `[0, 1]`: `payerShare + poolShare = tokensReceived` exactly and
`roundPoolShare + reserveShare = poolShare` exactly, with every share
non-negative — the floor arithmetic of src/index.js:788-789 and 817-821
neither loses nor fabricates units. -/
theorem tokenSplit_conservation (tokensReceived : ℤ) (retention : ℚ)
    (htot : 0 ≤ tokensReceived) (h0 : 0 ≤ retention) (h1 : retention ≤ 1) :
    userShare tokensReceived retention +
        competitionShare tokensReceived retention = tokensReceived ∧
    roundPoolShare (competitionShare tokensReceived retention) +
        permanentShare (competitionShare tokensReceived retention) =
      competitionShare tokensReceived retention ∧
    0 ≤ userShare tokensReceived retention ∧
    0 ≤ competitionShare tokensReceived retention ∧
    0 ≤ roundPoolShare (competitionShare tokensReceived retention) ∧
    0 ≤ permanentShare (competitionShare tokensReceived retention) := by
  obtain ⟨hu0, hu1⟩ := floor_mul_frac_bounds tokensReceived retention htot h0 h1
  have hcomp : 0 ≤ competitionShare tokensReceived retention := by
    unfold competitionShare userShare
    omega
  obtain ⟨hr0, hr1⟩ :=
    floor_mul_frac_bounds (competitionShare tokensReceived retention)
      (65/100) hcomp (by norm_num) (by norm_num)
  have hr0' : 0 ≤ roundPoolShare (competitionShare tokensReceived retention) := hr0
  have hr1' : roundPoolShare (competitionShare tokensReceived retention) ≤
      competitionShare tokensReceived retention := hr1
  refine ⟨?_, ?_, hu0, hcomp, hr0', ?_⟩
  · unfold competitionShare
    omega
  · unfold permanentShare
    omega
  · unfold permanentShare
    omega

/-- Witness for C3 at `tokensReceived = 1000`, `retention = 1/2` (a Basic
tier purchase): the split is 500/500, then 325/175. -/
theorem tokenSplit_conservation_witness :
    (0 : ℤ) ≤ 1000 ∧ (0 : ℚ) ≤ 1/2 ∧ (1/2 : ℚ) ≤ 1 ∧
    (userShare 1000 (1/2) + competitionShare 1000 (1/2) = 1000 ∧
     roundPoolShare (competitionShare 1000 (1/2)) +
         permanentShare (competitionShare 1000 (1/2)) =
       competitionShare 1000 (1/2) ∧
     0 ≤ userShare 1000 (1/2) ∧
     0 ≤ competitionShare 1000 (1/2) ∧
     0 ≤ roundPoolShare (competitionShare 1000 (1/2)) ∧
     0 ≤ permanentShare (competitionShare 1000 (1/2))) :=
  ⟨by norm_num, by norm_num, by norm_num,
   tokenSplit_conservation 1000 (1/2) (by norm_num) (by norm_num) (by norm_num)⟩

/-! ## C4: perpetual reserve never goes negative -/

/-- The bonus step function never exceeds 20%. -/
theorem getTreasuryBonusPercentage_le (r : ℤ) :
    getTreasuryBonusPercentage r ≤ 20/100 := by
  unfold getTreasuryBonusPercentage
  split
  · norm_num
  · split
    · norm_num
    · split
      · norm_num
      · split <;> norm_num

/-- The bonus step function is positive. -/
theorem getTreasuryBonusPercentage_nonneg (r : ℤ) :
    0 ≤ getTreasuryBonusPercentage r := by
  unfold getTreasuryBonusPercentage
  split
  · norm_num
  · split
    · norm_num
    · split
      · norm_num
      · split <;> norm_num

/-- The deducted bonus never exceeds the reserve it is taken from. -/
theorem calculateTreasuryBonus_le (r : ℤ) (hr : 0 ≤ r) :
    calculateTreasuryBonus r ≤ r := by
  unfold calculateTreasuryBonus
  exact (floor_mul_frac_bounds r (getTreasuryBonusPercentage r) hr
    (getTreasuryBonusPercentage_nonneg r)
    (le_trans (getTreasuryBonusPercentage_le r) (by norm_num))).2

/-- C4.  The perpetual reserve (`actualTreasuryBalance`) never becomes
negative: for any reserve `r ≥ 0` the percentage chosen by
`getTreasuryBonusPercentage` is at most 20%, the settlement deducts
`⌊r * p⌋ ≤ r`, and the reserve stays non-negative after any number `n` of
bonus payouts (src/index.js:84-102, 1159-1162). -/
theorem reserve_nonneg (r : ℤ) (n : ℕ) (hr : 0 ≤ r) :
    getTreasuryBonusPercentage r ≤ 20/100 ∧
    calculateTreasuryBonus r ≤ r ∧
    0 ≤ bonusPayoutStep^[n] r := by
  refine ⟨getTreasuryBonusPercentage_le r, calculateTreasuryBonus_le r hr, ?_⟩
  induction n with
  | zero => simpa using hr
  | succ k ih =>
    rw [Function.iterate_succ_apply']
    have hstep := calculateTreasuryBonus_le (bonusPayoutStep^[k] r) ih
    have heq : bonusPayoutStep (bonusPayoutStep^[k] r) =
        bonusPayoutStep^[k] r -
          calculateTreasuryBonus (bonusPayoutStep^[k] r) := rfl
    rw [heq]
    omega

section
attribute [local semireducible] Rat.mul Rat.add Rat.sub Rat.inv

/-- Witness for C4 at reserve 250000 and three successive bonus payouts. -/
theorem reserve_nonneg_witness :
    (0 : ℤ) ≤ 250000 ∧
    (getTreasuryBonusPercentage 250000 ≤ 20/100 ∧
     calculateTreasuryBonus 250000 ≤ 250000 ∧
     0 ≤ bonusPayoutStep^[3] 250000) :=
  ⟨by norm_num, reserve_nonneg 250000 3 (by norm_num)⟩

end

/-! ## C6: venue selection and fallback -/

/-- Counterexample to C6 as stated.  The claim puts the fallback on the
graduated path: with the token graduated and the preferred post-graduation
venue (Jupiter) failing, the purchase would fall back to a secondary
aggregator.  In the code the graduated path has no fallback at all: the
Jupiter error propagates even though the other venue would have succeeded.
And when both venues fail on the bonding-curve path, the propagated error
is only Jupiter's failure reason, not a concatenation of all venues'
reasons. -/
theorem buyMarket_cex :
    buyXPOSUREOnMarket true (.ok 5) (.error "Jupiter swap failed") =
      .error "Jupiter swap failed" ∧
    buyXPOSUREOnMarket false (.error "PumpPortal request failed")
        (.error "Jupiter swap failed") =
      .error "Jupiter swap failed" :=
  ⟨rfl, rfl⟩

/-- C6 as amended.  Venue selection in `buyXPOSUREOnMarket`
(src/index.js:507-541): a graduated token is bought on Jupiter with no
fallback; a token still on the bonding curve is bought on PumpPortal,
falling back to Jupiter on any PumpPortal failure, and when both fail only
the Jupiter failure reason propagates.  `checkIfBonded`
(src/index.js:284-319) reports graduated when the bonding-curve account is
gone, when its `complete` byte is 1, or when the probe itself errors. -/
theorem buyMarket_venueSelection (pump jup : Except String ℤ) (n : ℤ)
    (e : String) (complete : ℕ) :
    buyXPOSUREOnMarket true pump jup = jup ∧
    buyXPOSUREOnMarket false (.ok n) jup = .ok n ∧
    buyXPOSUREOnMarket false (.error e) jup = jup ∧
    checkIfBonded .noAccount = true ∧
    checkIfBonded .probeError = true ∧
    checkIfBonded (.curve complete) = (complete == 1) :=
  ⟨rfl, rfl, rfl, rfl, rfl, rfl⟩

/-! ## C5: what clears the round state -/

/-- Counterexample to C5 as stated.  `startNewCycle` (src/index.js:1019-1048)
does not clear the Participant, Voter or PendingEntry collections and does
not reset the round pool: run on a state holding one of each and a 100-token
pool, all four survive.  (The clearing happens in `announceWinners`,
src/index.js:1219-1222, before `startNewCycle` is scheduled; `startNewCycle`
leaving the pool alone is also what lets a no-upload round carry the pool
over.) -/
theorem startNewCycle_cex :
    (startNewCycle exMidRound 0).treasuryXPOSURE = 100 ∧
    (startNewCycle exMidRound 0).participants = exMidRound.participants ∧
    (startNewCycle exMidRound 0).voters = exMidRound.voters ∧
    (startNewCycle exMidRound 0).pendingPayments = exMidRound.pendingPayments ∧
    exMidRound.participants ≠ [] ∧
    exMidRound.voters ≠ [] ∧
    exMidRound.pendingPayments ≠ [] := by
  refine ⟨rfl, rfl, rfl, rfl, ?_, ?_, ?_⟩ <;> simp [exMidRound]

/-- C5 as amended.  The Cooldown → Submission transition is split across the
two functions: `announceWinners` (at the Voting → Cooldown settlement,
src/index.js:1111-1226) clears `participants`, `voters` and
`pendingPayments` and zeroes `treasuryXPOSURE`, leaving
`actualTreasuryBalance` unchanged except for the bonus deduction when the
round had a paid uploader and the roll hit; `startNewCycle`
(src/index.js:1019-1048) then changes only the phase and the timestamps,
preserving both collections and both treasury balances. -/
theorem roundReset_inAnnounceWinners (s : SysState) (now : ℤ) (roll : Bool) :
    (startNewCycle s now).participants = s.participants ∧
    (startNewCycle s now).voters = s.voters ∧
    (startNewCycle s now).pendingPayments = s.pendingPayments ∧
    (startNewCycle s now).treasuryXPOSURE = s.treasuryXPOSURE ∧
    (startNewCycle s now).actualTreasuryBalance = s.actualTreasuryBalance ∧
    (announceWinners s roll).participants = [] ∧
    (announceWinners s roll).voters = [] ∧
    (announceWinners s roll).pendingPayments = [] ∧
    (announceWinners s roll).treasuryXPOSURE = 0 ∧
    (announceWinners s roll).actualTreasuryBalance =
      s.actualTreasuryBalance -
        (if (uploadersPaid s.participants).isEmpty = false ∧ roll = true
         then calculateTreasuryBonus s.actualTreasuryBalance else 0) := by
  by_cases hup : (uploadersPaid s.participants).isEmpty <;>
    by_cases hroll : roll <;>
      simp [startNewCycle, announceWinners, hup, hroll]

/-! ## C8: no timeout sweep for pending entries -/

/-- Counterexample to C8 as stated.  There is no periodic sweep purging
PendingEntries past a timeout: the `pendingPayments` records carry no
`createdAt` field at all (src/index.js:1389-1395), the only recurring timer
is the status logger (src/index.js:1528-1530), which changes nothing, and
the phase transitions short of settlement preserve the collection.  A stale
unconfirmed entry created at round start (time 0) is still there one hour
later after the tick and after either transition. -/
theorem pendingSweep_cex :
    periodicStatusTick exStale = exStale ∧
    (startVoting exStale 3600000).pendingPayments = exStale.pendingPayments ∧
    (startNewCycle exStale 3600000).pendingPayments = exStale.pendingPayments ∧
    exStale.pendingPayments ≠ [] := by
  refine ⟨rfl, rfl, rfl, ?_⟩
  simp [exStale]

/-- C8 as amended.  Pending entries are never purged individually and no
timeout mechanism exists: the recurring status tick and the
`startNewCycle`/`startVoting` transitions all preserve `pendingPayments`
verbatim, and the whole collection is discarded only at round settlement,
when `announceWinners` resets it to `[]` (src/index.js:1222). -/
theorem pending_clearedOnlyAtSettlement (s : SysState) (now : ℤ) (roll : Bool) :
    (periodicStatusTick s).pendingPayments = s.pendingPayments ∧
    (startNewCycle s now).pendingPayments = s.pendingPayments ∧
    (startVoting s now).pendingPayments = s.pendingPayments ∧
    (announceWinners s roll).pendingPayments = [] := by
  refine ⟨rfl, rfl, ?_, ?_⟩
  · by_cases hup : (uploadersPaid s.participants).isEmpty <;>
      simp [startVoting, hup]
  · by_cases hup : (uploadersPaid s.participants).isEmpty <;>
      simp [announceWinners, hup]

/-! ## C9: `votedFor` is not write-once across participants -/

section
attribute [local semireducible] Rat.mul Rat.add Rat.sub Rat.inv

/-- Counterexample to C9 as stated.  `votedFor` is not single-assignment
within a round: the dedup check of the `vote_` handler is
`entry.voters.includes(voterId)` on the target participant only
(src/index.js:1445), so voter 10, having voted for participant 1, can
still vote for participant 2, and the second `castVote` overwrites
`votedFor` from `some 1` to `some 2`. -/
theorem castVote_cex :
    (castVote exVoteRound 10 1).2 = .voted ∧
    (castVote exVoteRound 10 1).1.voters.map (fun v => v.votedFor) = [some 1] ∧
    (castVote (castVote exVoteRound 10 1).1 10 2).2 = .voted ∧
    (castVote (castVote exVoteRound 10 1).1 10 2).1.voters.map
      (fun v => v.votedFor) = [some 2] := by
  refine ⟨rfl, rfl, rfl, rfl⟩

end

/-- C9 as amended.  The write-once discipline of `castVote` is per target
participant, not per voter: when the target exists and the voter is not yet
in its `voters` set the vote succeeds, overwriting `votedFor` with the new
target, and only an identical repeat vote (same voter, same target) is
rejected as already voted, with no state change (src/index.js:1433-1471). -/
theorem castVote_perTarget (s : SysState) (voterId targetId : ℕ)
    (entry : Participant)
    (hfind : s.participants.find? (fun p => p.userId == targetId) = some entry)
    (hnew : entry.voters.contains voterId = false) :
    (castVote s voterId targetId).2 = .voted ∧
    castVote (castVote s voterId targetId).1 voterId targetId =
      ((castVote s voterId targetId).1, .alreadyVoted) := by
  have hnew' : voterId ∉ entry.voters := by simpa using hnew
  have hres : castVote s voterId targetId =
      (castVoteApplied s voterId targetId, .voted) := by
    unfold castVote
    rw [hfind]
    simp [hnew']
  have key := updateFirst_find? (fun p : Participant => p.userId == targetId)
    (bumpVotes voterId) (fun x => rfl) s.participants
  have hfind2 :
      (castVote s voterId targetId).1.participants.find?
          (fun p => p.userId == targetId) = some (bumpVotes voterId entry) := by
    rw [hres]
    simp only [castVoteApplied]
    rw [key, hfind]
    rfl
  refine ⟨by rw [hres], ?_⟩
  generalize hG : (castVote s voterId targetId).1 = s1 at hfind2 ⊢
  unfold castVote
  rw [hfind2]
  simp [bumpVotes]

section
attribute [local semireducible] Rat.mul Rat.add Rat.sub Rat.inv

/-- Witness for the amended C9: voter 10 votes for participant 1 in
the two-uploader round; the repeat of the same vote is rejected without a
state change. -/
theorem castVote_perTarget_witness :
    exVoteRound.participants.find? (fun p => p.userId == 1) =
      some (mkUploader 1 0 1) ∧
    (mkUploader 1 0 1).voters.contains 10 = false ∧
    ((castVote exVoteRound 10 1).2 = .voted ∧
     castVote (castVote exVoteRound 10 1).1 10 1 =
       ((castVote exVoteRound 10 1).1, .alreadyVoted)) :=
  ⟨rfl, rfl, castVote_perTarget exVoteRound 10 1 (mkUploader 1 0 1) rfl rfl⟩

end

/-! ## C2, C7, C10: the `/confirm-payment` handler -/

/-- `confirmRest` either leaves `pendingPayments` untouched (failure paths)
or marks the matching entry paid (success path); it never adds or removes
entries. -/
theorem confirmRest_pendingPayments (s : SysState) (uid ref wallet : ℕ)
    (amt : ℚ) (o : PurchaseOracle) :
    (confirmRest s uid ref wallet amt o).1.pendingPayments =
      s.pendingPayments ∨
    (confirmRest s uid ref wallet amt o).1.pendingPayments =
      updateFirst (fun p : PendingPayment => p.reference == ref) markPaid
        s.pendingPayments := by
  unfold confirmRest
  by_cases h : o.purchaseDelta.getD 0 = 0
  · left
    simp [h, addTransFee]
  · by_cases ht : o.transferOk = false
    · left
      simp [h, ht, addTransFee]
    · right
      simp only [eq_false h, eq_false ht, if_false]
      split <;> first
        | rfl
        | (split <;> first | rfl | (split <;> rfl))

/-- On the purchase-failure path `confirmRest` only records the trans-fee:
the market buy threw (or settled at a zero delta), so no split, no
registration and no pool credit happen. -/
theorem confirmRest_purchaseFailed (s : SysState) (uid ref wallet : ℕ)
    (amt : ℚ) (o : PurchaseOracle) (h : o.purchaseDelta.getD 0 = 0) :
    confirmRest s uid ref wallet amt o = (addTransFee s amt, .purchaseFailed) := by
  unfold confirmRest
  simp [h]

/-- After any call of the handler that passes validation, the reference's
entry exists and is marked confirmed (src/index.js:687-694) — whatever the
purchase and the transfer later do. -/
theorem confirmPayment_refConfirmed (s : SysState) (req : PaymentRequest)
    (o : PurchaseOracle) (uid ref wallet : ℕ) (amt : ℚ)
    (hu : req.userId = some uid) (hr : req.reference = some ref)
    (hw : req.senderWallet = some wallet) (ha : req.amount = some amt)
    (hamt : ¬(amt < 1/1000 ∨ 100 < amt)) (hwv : req.walletValid = true) :
    ∃ e, (confirmPayment s req o).1.pendingPayments.find?
        (fun p => p.reference == ref) = some e ∧ e.confirmed = true := by
  have hrefl : (fun p : PendingPayment => p.reference == ref) (pushedPayment uid ref) = true := by
    simp [pushedPayment]
  have hwv' : ¬(req.walletValid = false) := by simp [hwv]
  unfold confirmPayment
  rw [hu, hr, hw, ha]
  simp only [eq_false hamt, eq_false hwv', if_false]
  rcases hfind : s.pendingPayments.find? (fun p => p.reference == ref) with _ | e
  · simp only [hfind]
    rcases confirmRest_pendingPayments { s with pendingPayments := s.pendingPayments ++ [pushedPayment uid ref] } uid ref wallet amt o with hcase | hcase
    · refine ⟨pushedPayment uid ref, ?_, rfl⟩
      rw [hcase]
      exact find?_append_of_none _ _ _ hfind hrefl
    · refine ⟨markPaid (pushedPayment uid ref), ?_, rfl⟩
      rw [hcase]
      have := updateFirst_find?
        (fun p : PendingPayment => p.reference == ref) markPaid
        (fun x => rfl) (s.pendingPayments ++ [pushedPayment uid ref])
      rw [this, find?_append_of_none _ _ _ hfind hrefl]
      rfl
  · simp only [hfind]
    by_cases hconf : e.confirmed = true
    · refine ⟨e, ?_, hconf⟩
      simp only [hconf, eq_self_iff_true, if_true]
      exact hfind
    · have hconf' : e.confirmed = false := by
        revert hconf
        cases e.confirmed <;> simp
      have hmarked :
          (updateFirst (fun p : PendingPayment => p.reference == ref)
            markConfirmed s.pendingPayments).find?
              (fun p : PendingPayment => p.reference == ref) =
            some (markConfirmed e) := by
        rw [updateFirst_find?
          (fun p : PendingPayment => p.reference == ref) markConfirmed
          (fun x => rfl) s.pendingPayments, hfind]
        rfl
      simp only [hconf', Bool.false_eq_true, if_false]
      rcases confirmRest_pendingPayments { s with pendingPayments := updateFirst (fun p : PendingPayment => p.reference == ref) markConfirmed s.pendingPayments } uid ref wallet amt o with hcase | hcase
      · exact ⟨markConfirmed e, by rw [hcase]; exact hmarked, rfl⟩
      · refine ⟨markPaid (markConfirmed e), ?_, rfl⟩
        rw [hcase]
        rw [updateFirst_find?
          (fun p : PendingPayment => p.reference == ref) markPaid
          (fun x => rfl) _, hmarked]
        rfl

/-- A valid notification whose reference is already confirmed is an
idempotent no-op: the state is returned untouched with the
already-processed response (src/index.js:681-685). -/
theorem alreadyProcessed_of_confirmed (s : SysState) (req : PaymentRequest)
    (o : PurchaseOracle) (uid ref wallet : ℕ) (amt : ℚ)
    (hu : req.userId = some uid) (hr : req.reference = some ref)
    (hw : req.senderWallet = some wallet) (ha : req.amount = some amt)
    (hamt : ¬(amt < 1/1000 ∨ 100 < amt)) (hwv : req.walletValid = true)
    (e : PendingPayment)
    (hfind : s.pendingPayments.find? (fun p => p.reference == ref) = some e)
    (hconf : e.confirmed = true) :
    confirmPayment s req o = (s, .alreadyProcessed) := by
  have hwv' : ¬(req.walletValid = false) := by simp [hwv]
  unfold confirmPayment
  rw [hu, hr, hw, ha]
  simp only [eq_false hamt, eq_false hwv', if_false, hfind, hconf,
    eq_self_iff_true, if_true]

/-- C2.  Calling the payment-confirmation handler twice with the same
reference (and the same amount) yields "already processed" the second time,
mutates no state on the second call, and creates no duplicate Participant
or Voter for that reference — the second call returns the first call's
state unchanged (src/index.js:681-695). -/
theorem recordNotification_idempotent (s : SysState) (req : PaymentRequest)
    (o1 o2 : PurchaseOracle) (uid ref wallet : ℕ) (amt : ℚ)
    (hu : req.userId = some uid) (hr : req.reference = some ref)
    (hw : req.senderWallet = some wallet) (ha : req.amount = some amt)
    (hamt : ¬(amt < 1/1000 ∨ 100 < amt)) (hwv : req.walletValid = true) :
    confirmPayment (confirmPayment s req o1).1 req o2 =
      ((confirmPayment s req o1).1, .alreadyProcessed) := by
  obtain ⟨e, hfind, hconf⟩ :=
    confirmPayment_refConfirmed s req o1 uid ref wallet amt hu hr hw ha hamt hwv
  exact alreadyProcessed_of_confirmed _ req o2 uid ref wallet amt
    hu hr hw ha hamt hwv e hfind hconf

section
attribute [local semireducible] Rat.mul Rat.add Rat.sub Rat.inv

/-- Witness for C2: user 1 pays 0.03 SOL under fresh reference 7 against
the empty state; the repeated notification answers already-processed with
the state unchanged. -/
theorem recordNotification_idempotent_witness :
    exReq.userId = some 1 ∧ exReq.reference = some 7 ∧
    exReq.senderWallet = some 2 ∧ exReq.amount = some (3/100) ∧
    ¬((3/100 : ℚ) < 1/1000 ∨ (100 : ℚ) < 3/100) ∧ exReq.walletValid = true ∧
    confirmPayment (confirmPayment exEmpty exReq exOracle).1 exReq exOracle =
      ((confirmPayment exEmpty exReq exOracle).1, .alreadyProcessed) :=
  ⟨rfl, rfl, rfl, rfl, by norm_num, rfl,
   recordNotification_idempotent exEmpty exReq exOracle exOracle 1 7 2 (3/100)
     rfl rfl rfl rfl (by norm_num) rfl⟩

end

/-- C7.  A request that fails validation — missing field, missing or
non-numeric amount, amount outside 0.001-100 SOL, or an unparsable sender
wallet — is rejected with a 400-level error and mutates nothing: no
PendingEntry is created or confirmed and no ledger field changes
(src/index.js:644-667). -/
theorem confirmPayment_rejectsInvalid (s : SysState) (req : PaymentRequest)
    (o : PurchaseOracle) (h : validRequest req = false) :
    (confirmPayment s req o).1 = s ∧
    (confirmPayment s req o).2.isValidationError = true := by
  rcases hu : req.userId with _ | uid
  · constructor <;> simp [confirmPayment, hu, ConfirmResp.isValidationError]
  · rcases hr : req.reference with _ | ref
    · constructor <;> simp [confirmPayment, hu, hr, ConfirmResp.isValidationError]
    · rcases hw : req.senderWallet with _ | wallet
      · constructor <;> simp [confirmPayment, hu, hr, hw, ConfirmResp.isValidationError]
      · rcases ha : req.amount with _ | amt
        · constructor <;> simp [confirmPayment, hu, hr, hw, ha, ConfirmResp.isValidationError]
        · by_cases hamt : amt < 1/1000 ∨ 100 < amt
          · constructor <;>
              · unfold confirmPayment
                rw [hu, hr, hw, ha]
                simp only [eq_true hamt, if_true]
                try rfl
          · have hwv : req.walletValid = false := by
              push_neg at hamt
              have h1 : (decide (amt < 1/1000)) = false :=
                decide_eq_false (not_lt.mpr hamt.1)
              have h2 : (decide ((100 : ℚ) < amt)) = false :=
                decide_eq_false (not_lt.mpr hamt.2)
              simp only [validRequest, hu, hr, hw, ha, Option.isSome_some,
                h1, h2, Bool.or_self, Bool.not_false, Bool.true_and] at h
              exact h
            constructor <;>
              · unfold confirmPayment
                rw [hu, hr, hw, ha]
                simp only [eq_false hamt, if_false, hwv, eq_self_iff_true,
                  if_true]
                try rfl

section
attribute [local semireducible] Rat.mul Rat.add Rat.sub Rat.inv

/-- Witness for C7: the 200-SOL request is rejected and the state survives
untouched. -/
theorem confirmPayment_rejectsInvalid_witness :
    validRequest exBadReq = false ∧
    ((confirmPayment exMidRound exBadReq exOracle).1 = exMidRound ∧
     (confirmPayment exMidRound exBadReq exOracle).2.isValidationError = true) :=
  ⟨by decide, confirmPayment_rejectsInvalid exMidRound exBadReq exOracle (by decide)⟩

end

/-- C10.  The handler marks the reference confirmed and records the
trans-fee before the token purchase is attempted; when the purchase fails
it returns an error without rolling that mark back, so the entry stays
confirmed, no Participant or Voter is registered, no pool credit happens —
and any later notification with the same reference answers
"already processed", so the payment can never be settled
(src/index.js:687-695, 720-728, 770-785). -/
theorem confirmPayment_confirmsBeforePurchase (s : SysState)
    (req : PaymentRequest) (o1 : PurchaseOracle) (uid ref wallet : ℕ)
    (amt : ℚ)
    (hu : req.userId = some uid) (hr : req.reference = some ref)
    (hw : req.senderWallet = some wallet) (ha : req.amount = some amt)
    (hamt : ¬(amt < 1/1000 ∨ 100 < amt)) (hwv : req.walletValid = true)
    (hfresh : s.pendingPayments.find? (fun p => p.reference == ref) = none)
    (hfail : o1.purchaseDelta = none) :
    (confirmPayment s req o1).2 = .purchaseFailed ∧
    (confirmPayment s req o1).1.pendingPayments =
      s.pendingPayments ++ [pushedPayment uid ref] ∧
    (confirmPayment s req o1).1.participants = s.participants ∧
    (confirmPayment s req o1).1.voters = s.voters ∧
    (confirmPayment s req o1).1.treasuryXPOSURE = s.treasuryXPOSURE ∧
    (confirmPayment s req o1).1.actualTreasuryBalance =
      s.actualTreasuryBalance ∧
    (confirmPayment s req o1).1.transFeeCollected =
      s.transFeeCollected + amt * (10/100) ∧
    ∀ o2, confirmPayment (confirmPayment s req o1).1 req o2 =
      ((confirmPayment s req o1).1, .alreadyProcessed) := by
  have hrefl : (fun p : PendingPayment => p.reference == ref) (pushedPayment uid ref) = true := by
    simp [pushedPayment]
  have hwv' : ¬(req.walletValid = false) := by simp [hwv]
  have hcp : confirmPayment s req o1 =
      (addTransFee
        { s with pendingPayments := s.pendingPayments ++ [pushedPayment uid ref] }
        amt, .purchaseFailed) := by
    unfold confirmPayment
    rw [hu, hr, hw, ha]
    simp only [eq_false hamt, eq_false hwv', if_false, hfresh]
    exact confirmRest_purchaseFailed _ uid ref wallet amt o1 (by rw [hfail]; rfl)
  refine ⟨by rw [hcp], by rw [hcp]; rfl, by rw [hcp]; rfl, by rw [hcp]; rfl,
    by rw [hcp]; rfl, by rw [hcp]; rfl, by rw [hcp]; rfl, ?_⟩
  intro o2
  apply alreadyProcessed_of_confirmed _ req o2 uid ref wallet amt
    hu hr hw ha hamt hwv (pushedPayment uid ref) _ rfl
  rw [hcp]
  exact find?_append_of_none _ _ _ hfresh hrefl

section
attribute [local semireducible] Rat.mul Rat.add Rat.sub Rat.inv

/-- Witness for C10: against the empty state, the 0.03 SOL notification
with a failing purchase ends in an error yet leaves reference 7 confirmed,
and its retry answers already-processed. -/
theorem confirmPayment_confirmsBeforePurchase_witness :
    exEmpty.pendingPayments.find? (fun p => p.reference == 7) = none ∧
    exFailOracle.purchaseDelta = none ∧
    ((confirmPayment exEmpty exReq exFailOracle).2 = .purchaseFailed ∧
     (confirmPayment exEmpty exReq exFailOracle).1.pendingPayments =
       exEmpty.pendingPayments ++ [pushedPayment 1 7] ∧
     (confirmPayment exEmpty exReq exFailOracle).1.participants =
       exEmpty.participants ∧
     (confirmPayment exEmpty exReq exFailOracle).1.voters = exEmpty.voters ∧
     (confirmPayment exEmpty exReq exFailOracle).1.treasuryXPOSURE =
       exEmpty.treasuryXPOSURE ∧
     (confirmPayment exEmpty exReq exFailOracle).1.actualTreasuryBalance =
       exEmpty.actualTreasuryBalance ∧
     (confirmPayment exEmpty exReq exFailOracle).1.transFeeCollected =
       exEmpty.transFeeCollected + (3/100) * (10/100) ∧
     ∀ o2, confirmPayment (confirmPayment exEmpty exReq exFailOracle).1 exReq o2 =
       ((confirmPayment exEmpty exReq exFailOracle).1, .alreadyProcessed)) :=
  ⟨rfl, rfl,
   confirmPayment_confirmsBeforePurchase exEmpty exReq exFailOracle 1 7 2 (3/100)
     rfl rfl rfl rfl (by norm_num) rfl rfl rfl⟩

end

/-! ## C1: round-end conservation -/

theorem weights_nonneg : ∀ w ∈ weights, 0 ≤ w := by
  intro w hw
  simp only [weights, List.mem_cons, List.not_mem_nil, or_false] at hw
  rcases hw with rfl | rfl | rfl | rfl | rfl <;> norm_num

theorem weights_sum : weights.sum = 1 := by
  simp only [weights, List.sum_cons, List.sum_nil]
  norm_num

theorem winnerFinal_mult_one (pp : ℤ) (w : ℚ) :
    winnerFinal pp w 1 = winnerBase pp w := by
  unfold winnerFinal
  rw [mul_one, Int.floor_intCast]

theorem winnerBase_nonneg (pp : ℤ) (w : ℚ) (hpp : 0 ≤ pp) (hw : 0 ≤ w) :
    0 ≤ winnerBase pp w :=
  Int.floor_nonneg.mpr (mul_nonneg (by exact_mod_cast hpp) hw)

/-- With every multiplier equal to 1, the ranked payouts are the plain
weight floors, and those sum to at most `⌊pp * Σ weights⌋`. -/
theorem zipWeights_sum_le (pp : ℤ) (hpp : 0 ≤ pp) (ps : List Participant) :
    ∀ (ws : List ℚ), (∀ p ∈ ps, p.multiplier = 1) → (∀ w ∈ ws, 0 ≤ w) →
      ((ps.zip ws).map (fun pw => winnerFinal pp pw.2 pw.1.multiplier)).sum ≤
        ⌊(pp : ℚ) * ws.sum⌋ := by
  induction ps with
  | nil =>
    intro ws _ hw
    simp only [List.zip_nil_left, List.map_nil, List.sum_nil]
    exact Int.floor_nonneg.mpr
      (mul_nonneg (by exact_mod_cast hpp) (List.sum_nonneg hw))
  | cons p ps ih =>
    intro ws hm hw
    cases ws with
    | nil => simp
    | cons w ws =>
      simp only [List.zip_cons_cons, List.map_cons, List.sum_cons]
      have hp1 : p.multiplier = 1 := hm p (List.mem_cons_self p ps)
      rw [hp1, winnerFinal_mult_one]
      have hrest := ih ws (fun q hq => hm q (List.mem_cons_of_mem p hq))
        (fun x hx => hw x (List.mem_cons_of_mem w hx))
      calc winnerBase pp w +
            ((ps.zip ws).map (fun pw => winnerFinal pp pw.2 pw.1.multiplier)).sum
          ≤ winnerBase pp w + ⌊(pp : ℚ) * ws.sum⌋ := by omega
        _ ≤ ⌊(pp : ℚ) * w + (pp : ℚ) * ws.sum⌋ := floor_add_floor_le _ _
        _ = ⌊(pp : ℚ) * (w + ws.sum)⌋ := by rw [mul_add]

/-- Without a bonus win, the payout list is just the ranked `finalAmt`s. -/
theorem winnerPayoutList_noBonus (pp : ℤ) (sorted : List Participant)
    (bonusAmt : ℤ) :
    winnerPayoutList pp sorted false bonusAmt =
      (sorted.zip weights).map (fun pw => winnerFinal pp pw.2 pw.1.multiplier) := by
  unfold winnerPayoutList
  rcases hmap : (sorted.zip weights).map
    (fun pw => winnerFinal pp pw.2 pw.1.multiplier) with _ | ⟨x, t⟩
  · rw [hmap]
  · rw [hmap]
    simp

/-- The total paid by the winners loop never exceeds the 80% prize pool
when every ranked winner has multiplier 1 and no bonus was won. -/
theorem settlementWinnersPaid_le (s : SysState)
    (hpool : 0 ≤ s.treasuryXPOSURE)
    (hm : ∀ p ∈ s.participants, p.multiplier = 1) :
    settlementWinnersPaid s false ≤ prizePool s.treasuryXPOSURE := by
  have hppnn : 0 ≤ prizePool s.treasuryXPOSURE :=
    (floor_mul_frac_bounds s.treasuryXPOSURE (80/100) hpool (by norm_num)
      (by norm_num)).1
  unfold settlementWinnersPaid
  rw [winnerPayoutList_noBonus]
  have hmem : ∀ x ∈ ((sortByVotesDesc (uploadersPaid s.participants)).zip
      weights).map (fun pw =>
        winnerFinal (prizePool s.treasuryXPOSURE) pw.2 pw.1.multiplier),
      0 ≤ x := by
    intro x hx
    obtain ⟨pw, hpw, rfl⟩ := List.mem_map.1 hx
    obtain ⟨p, w⟩ := pw
    obtain ⟨hpmem, hwmem⟩ := List.of_mem_zip hpw
    have hp1 : p.multiplier = 1 := by
      apply hm
      have := mem_sortByVotesDesc.mp hpmem
      exact (List.mem_filter.1 this).1
    simp only []
    rw [hp1, winnerFinal_mult_one]
    exact winnerBase_nonneg _ _ hppnn (weights_nonneg w hwmem)
  have h1 := paidSum_le_sum _ hmem
  have h2 := zipWeights_sum_le (prizePool s.treasuryXPOSURE) hppnn
    (sortByVotesDesc (uploadersPaid s.participants)) weights
    (fun p hp => hm p (List.mem_filter.1 (mem_sortByVotesDesc.mp hp)).1)
    weights_nonneg
  have h3 : ⌊(prizePool s.treasuryXPOSURE : ℚ) * weights.sum⌋ =
      prizePool s.treasuryXPOSURE := by
    rw [weights_sum, mul_one, Int.floor_intCast]
  omega

/-- Floors of the pro-rata voter shares sum to at most the floor of the
whole. -/
theorem voterShares_le (vp : ℤ) (T : ℚ) : ∀ (amts : List ℚ),
    (amts.map (fun a => voterShare vp T a)).sum ≤
      ⌊amts.sum / T * (vp : ℚ)⌋ := by
  intro amts
  induction amts with
  | nil => simp [voterShare]
  | cons a t ih =>
    simp only [List.map_cons, List.sum_cons]
    calc voterShare vp T a + (t.map (fun a => voterShare vp T a)).sum
        ≤ voterShare vp T a + ⌊t.sum / T * (vp : ℚ)⌋ := by omega
      _ ≤ ⌊a / T * (vp : ℚ) + t.sum / T * (vp : ℚ)⌋ := floor_add_floor_le _ _
      _ = ⌊(a + t.sum) / T * (vp : ℚ)⌋ := by rw [add_div, add_mul]

/-- The voter-reward loop either pays nothing, or pays at most the
(positive) voter pool. -/
theorem settlementVotersPaid_cases (s : SysState)
    (hv : ∀ v ∈ s.voters, 0 < v.amount) :
    settlementVotersPaid s = 0 ∨
    (settlementVotersPaid s ≤ voterPool s.treasuryXPOSURE ∧
     0 < voterPool s.treasuryXPOSURE) := by
  unfold settlementVotersPaid
  rcases hsorted : sortByVotesDesc (uploadersPaid s.participants)
    with _ | ⟨winner, rest⟩
  · simp only [hsorted]
    exact .inl trivial
  · simp only [hsorted]
    by_cases hskip : ((s.voters.filter
        (fun v => v.votedFor == some winner.userId)).isEmpty ||
      decide (voterPool s.treasuryXPOSURE ≤ 0)) = true
    · rw [if_pos hskip]
      exact .inl rfl
    · rw [if_neg hskip]
      rw [Bool.or_eq_true, not_or, Bool.not_eq_true, Bool.not_eq_true] at hskip
      obtain ⟨hne, hvp0⟩ := hskip
      have hvp : 0 < voterPool s.treasuryXPOSURE :=
        not_le.mp (of_decide_eq_false hvp0)
      refine .inr ⟨?_, hvp⟩
      set wvs := s.voters.filter (fun v => v.votedFor == some winner.userId)
        with hwvs
      have hwmem : ∀ v ∈ wvs, 0 < v.amount := fun v hvm =>
        hv v (List.mem_filter.1 hvm).1
      have hwne : wvs ≠ [] := List.isEmpty_eq_false.mp hne
      have hTpos : 0 < (wvs.map (fun v => v.amount)).sum := by
        apply List.sum_pos
        · intro a ha
          obtain ⟨v, hvm, rfl⟩ := List.mem_map.1 ha
          exact hwmem v hvm
        · intro hmapnil
          exact hwne (List.map_eq_nil_iff.mp hmapnil)
      have hshape : wvs.map (fun v =>
            voterShare (voterPool s.treasuryXPOSURE)
              ((wvs.map (fun v => v.amount)).sum) v.amount) =
          (wvs.map (fun v => v.amount)).map (fun a =>
            voterShare (voterPool s.treasuryXPOSURE)
              ((wvs.map (fun v => v.amount)).sum) a) := by
        rw [List.map_map]
        rfl
      have hnn : ∀ x ∈ wvs.map (fun v =>
          voterShare (voterPool s.treasuryXPOSURE)
            ((wvs.map (fun v => v.amount)).sum) v.amount), 0 ≤ x := by
        intro x hx
        obtain ⟨v, hvm, rfl⟩ := List.mem_map.1 hx
        apply Int.floor_nonneg.mpr
        apply mul_nonneg
        · exact div_nonneg (le_of_lt (hwmem v hvm)) (le_of_lt hTpos)
        · exact_mod_cast le_of_lt hvp
      have h1 := paidSum_le_sum _ hnn
      have h2 := voterShares_le (voterPool s.treasuryXPOSURE)
        ((wvs.map (fun v => v.amount)).sum) (wvs.map (fun v => v.amount))
      rw [← hshape] at h2
      have h3 : ((wvs.map (fun v => v.amount)).sum /
            ((wvs.map (fun v => v.amount)).sum) * (voterPool s.treasuryXPOSURE : ℚ)) =
          (voterPool s.treasuryXPOSURE : ℚ) := by
        rw [div_self (ne_of_gt hTpos), one_mul]
      rw [h3, Int.floor_intCast] at h2
      omega

section
attribute [local semireducible] Rat.mul Rat.add Rat.sub Rat.inv

/-- Counterexample to C1 as stated.  The per-winner payout is
`floor(floor(prizePool * weight) * multiplier)` with multipliers up to 1.5
(Whale tier), so the payouts are NOT bounded by the round pool: a round
with five Whale uploaders (multiplier 1.5) and `treasuryXPOSURE = 1000`
pays 480 + 300 + 240 + 120 + 60 = 1200 tokens — more than the whole round
pool — even with no bonus and no voters. -/
theorem roundSettlement_cex :
    (uploadersPaid exWhaleRound.participants).isEmpty = false ∧
    exWhaleRound.treasuryXPOSURE = 1000 ∧
    settlementTotalPaid exWhaleRound false = 1200 ∧
    ¬(settlementTotalPaid exWhaleRound false ≤ exWhaleRound.treasuryXPOSURE) := by
  refine ⟨rfl, rfl, ?_, ?_⟩ <;> decide

end

/-- C1 as amended.  The round-end conservation bound holds only for rounds
whose ranked winners all carry multiplier 1 (Basic tier) and whose bonus
roll did not hit: then the winner payouts
`floor(prizePool * weight) * 1` plus the voter payouts computed by
`announceWinners` total at most `treasuryXPOSURE` as it stood at
settlement start.  (With multipliers above 1 the total can exceed the
pool — see the counterexample — and a won bonus is paid on top out of the
reserve, not the round pool.) -/
theorem roundSettlement_conservation (s : SysState)
    (hpool : 0 ≤ s.treasuryXPOSURE)
    (hm : ∀ p ∈ s.participants, p.multiplier = 1)
    (hv : ∀ v ∈ s.voters, 0 < v.amount) :
    settlementTotalPaid s false ≤ s.treasuryXPOSURE := by
  unfold settlementTotalPaid
  by_cases hup : (uploadersPaid s.participants).isEmpty = true
  · rw [if_pos hup]
    exact hpool
  · rw [if_neg hup]
    have hpple : prizePool s.treasuryXPOSURE ≤ s.treasuryXPOSURE :=
      (floor_mul_frac_bounds s.treasuryXPOSURE (80/100) hpool (by norm_num)
        (by norm_num)).2
    have hW := settlementWinnersPaid_le s hpool hm
    have hvpdef : voterPool s.treasuryXPOSURE =
        s.treasuryXPOSURE - prizePool s.treasuryXPOSURE := rfl
    rcases settlementVotersPaid_cases s hv with h0 | ⟨hle, _⟩
    · omega
    · omega

section
attribute [local semireducible] Rat.mul Rat.add Rat.sub Rat.inv

/-- Witness for the amended C1: the Basic-tier round (two multiplier-1
uploaders, one voter on the leader, pool 1000) pays 320 + 200 to the
winners and 200 to the voter — 720 ≤ 1000. -/
theorem roundSettlement_conservation_witness :
    0 ≤ exBasicRound.treasuryXPOSURE ∧
    settlementTotalPaid exBasicRound false = 720 ∧
    settlementTotalPaid exBasicRound false ≤ exBasicRound.treasuryXPOSURE :=
  ⟨by decide, by decide,
   roundSettlement_conservation exBasicRound (by decide) (by decide) (by decide)⟩

end

end Xposure
